import Mathlib

/-!
Shallow embedding of the Trivia-AI-Game real-time audio pipeline
(App component in `src/unnamed/part_000`, types in `src/unnamed/part_001`,
question generation in `src/services/geminiService.ts`).

The module `services/audioUtils.ts` (`createPcmBlob`, `decodeAudioData`,
`base64ToUint8Array`) is imported by the app but its source is not part of
the repository snapshot; the PCM codec and the decode adapter below are
modelled from the specification text (sections 4.1 and 4.2) and are marked
as such in their doc comments.  Everything else is translated directly
from the TypeScript source.
-/

namespace TriviaGame

/-! ## Types (`src/unnamed/part_001`, types.ts) -/

/-- The `GamePhase` enum from types.ts. -/
inductive GamePhase where
  | SETUP
  | PREPARING
  | READY
  | PLAYING
  | ENDED
deriving DecidableEq, Repr

/-- The `TriviaConfig` record from types.ts. -/
structure TriviaConfig where
  topic : String
  personality : String
deriving DecidableEq, Repr

/-- The `GeneratedQuestion` record from types.ts. -/
structure GeneratedQuestion where
  question : String
  answer : String
  context : String
deriving DecidableEq, Repr

/-- Transcript entry role: the app's transcript state holds
`\x7brole: 'user'|'model', text: string\x7d` records. -/
inductive Role where
  | user
  | model
deriving DecidableEq, Repr

/-- One transcript entry. -/
structure TranscriptEntry where
  role : Role
  text : String
deriving DecidableEq, Repr

/-! ## PCM codec, modelled from the spec (audioUtils.ts is not in the
repository snapshot). -/

/-- Modelled from the spec: the clamp to [-1, 1] in `encode` (4.1). -/
def clamp1 (x : ℚ) : ℚ := max (-1) (min 1 x)

/-- Truncation of a rational toward zero, the semantics of a float-to-int
cast in the source language. -/
def qtrunc (q : ℚ) : ℤ := if 0 ≤ q then ⌊q⌋ else ⌈q⌉

/-- Modelled from the spec: `encode` (4.1) quantizes one sample — clamp to
[-1,1], scale by 0x7FFF (by 0x8000 only for negative values), truncate to a
16-bit signed integer. -/
def encodeSample (x : ℚ) : ℤ :=
  if 0 ≤ clamp1 x then qtrunc (clamp1 x * 32767) else qtrunc (clamp1 x * 32768)

/-- Little-endian byte pair of a 16-bit signed integer (two's complement). -/
def int16ToBytes (n : ℤ) : List ℕ :=
  let u := (n % 65536).toNat
  [u % 256, u / 256]

/-- Modelled from the spec: `encode` (4.1) maps each sample to its
little-endian 16-bit encoding. -/
def encode (xs : List ℚ) : List ℕ := xs.flatMap fun x => int16ToBytes (encodeSample x)

/-- Reassemble a little-endian byte pair into a signed 16-bit value. -/
def toInt16 (v : ℕ) : ℤ := if v < 32768 then (v : ℤ) else (v : ℤ) - 65536

/-- Modelled from the spec: the decode direction (4.2) converts each
little-endian 16-bit sample to a float in [-1,1] by dividing by 0x8000. -/
def bytePairToSample (lo hi : ℕ) : ℚ := (toInt16 (lo + 256 * hi) : ℚ) / 32768

/-- Modelled from the spec: interpret a byte sequence as consecutive
little-endian 16-bit PCM samples (4.2). -/
def pcmBytesToSamples : List ℕ → List ℚ
  | lo :: hi :: rest => bytePairToSample lo hi :: pcmBytesToSamples rest
  | _ => []

/-- A decoded playback buffer (spec 3, `PlaybackBuffer`). -/
structure AudioBuf where
  data : List ℚ
  sampleRate : ℚ
  channels : ℕ
deriving DecidableEq, Repr

/-- Duration of a buffer: frames divided by sample rate. -/
def AudioBuf.duration (b : AudioBuf) : ℚ :=
  ((b.data.length : ℚ) / (b.channels : ℚ)) / b.sampleRate

/-- Modelled from the spec: `decodeAudioData` (4.2) — fails when the byte
length is not a multiple of `2 * channelCount`, otherwise converts the
bytes to samples at the given rate. -/
def decodeAudioData (bytes : List ℕ) (sampleRate : ℚ) (channels : ℕ) :
    Option AudioBuf :=
  if bytes.length % (2 * channels) = 0 then
    some ⟨pcmBytesToSamples bytes, sampleRate, channels⟩
  else
    none

/-! ## Application state (the refs and React state of the `App` component,
`src/unnamed/part_000`, lines 13-30). -/

/-- A scheduled playback source: one element of `sourcesRef.current`.  The
source wraps an `AudioBufferSourceNode` started at `startAt` with a buffer
of the given duration; `id` stands for the node's object identity. -/
structure ScheduledSource where
  id : ℕ
  startAt : ℚ
  duration : ℚ
deriving DecidableEq, Repr

/-- Observable side effects of the handlers: stopping a media track,
closing the output audio context, stopping a scheduled source node,
starting a source node at a given clock time, and opening the live
transport connection. -/
inductive Effect where
  | trackStop
  | ctxClose
  | sourceStop (id : ℕ)
  | sourceStarted (id : ℕ) (startAt : ℚ)
  | transportOpen
deriving DecidableEq, Repr

/-- The state held by the `App` component: React state hooks (`phase`,
`config`, `questions`, `error`, `isConnected`, `transcript`) and refs
(`streamRef` as the stopped flags of its tracks, `audioContextRef` as an
open/closed flag, `nextStartTimeRef`, `sourcesRef`).  `nextSourceId`
supplies the object identity of the next created source node.
`sessionRef.current` is never assigned anywhere in the source (the
assignment at line 214 is commented out), so it is omitted: its guarded
close in `endSession` never runs. -/
structure AppState where
  phase : GamePhase
  config : Option TriviaConfig
  questions : List GeneratedQuestion
  error : Option String
  stream : Option (List Bool)
  audioCtxOpen : Option Bool
  nextStartTime : ℚ
  sources : List ScheduledSource
  nextSourceId : ℕ
  isConnected : Bool
  transcript : List TranscriptEntry
deriving DecidableEq, Repr

/-- The state before any session: every ref null, every collection empty
(the `useState`/`useRef` initial values at lines 13-30). -/
def initialState : AppState :=
  { phase := GamePhase.SETUP
    config := none
    questions := []
    error := none
    stream := none
    audioCtxOpen := none
    nextStartTime := 0
    sources := []
    nextSourceId := 0
    isConnected := false
    transcript := [] }

/-- One inbound `LiveServerMessage` as consumed by `onmessage`:
`serverContent?.modelTurn?.parts?.[0]?.text` (a missing or empty string is
falsy, hence represented as `none`), the bytes decoded from
`parts?.[0]?.inlineData?.data` (absent or empty base64 is falsy, hence
`none`), and `serverContent?.interrupted`. -/
structure LiveServerMessage where
  text : Option String
  audioData : Option (List ℕ)
  interrupted : Bool
deriving DecidableEq, Repr

/-- Function `endSession` (lines 39-52): stop every track of the current stream (if
any), close the audio context (if any), stop every registered source,
clear the registry and set `isConnected := false`.  Every dereference in
the source is null-guarded, so the function is total; note that it does
NOT touch `nextStartTimeRef` and does not null out the refs. -/
def endSession (s : AppState) : AppState × List Effect :=
  let streamEffs : List Effect :=
    match s.stream with
    | some tracks => tracks.map fun _ => Effect.trackStop
    | none => []
  let ctxEffs : List Effect :=
    match s.audioCtxOpen with
    | some _ => [Effect.ctxClose]
    | none => []
  let srcEffs : List Effect := s.sources.map fun src => Effect.sourceStop src.id
  ({ s with
      stream := s.stream.map fun tracks => tracks.map fun _ => true
      audioCtxOpen := s.audioCtxOpen.map fun _ => false
      sources := []
      isConnected := false },
   streamEffs ++ ctxEffs ++ srcEffs)

/-- First step of `onmessage` (lines 153-156): when the message carries a
(truthy, i.e. non-empty) text part, append it to the transcript with role
`model`. -/
def handleText (m : LiveServerMessage) (s : AppState) : AppState :=
  match m.text with
  | some t => if t = "" then s
              else { s with transcript := s.transcript ++ [⟨Role.model, t⟩] }
  | none => s

/-- Last step of `onmessage` (lines 184-189): on `interrupted`, stop every
source in the registry, clear the registry and reset `nextStartTime` to 0. -/
def handleInterrupted (m : LiveServerMessage) (s : AppState)
    (effs : List Effect) : AppState × List Effect :=
  if m.interrupted then
    ({ s with sources := [], nextStartTime := 0 },
     effs ++ s.sources.map fun src => Effect.sourceStop src.id)
  else
    (s, effs)

/-- Handler `onmessage` (lines 152-194), as a function of the output clock reading
`clockNow` (`outputCtx.currentTime`) at the moment the handler runs.
Order follows the source: transcript append; then, when audio data is
present, `nextStartTime := max nextStartTime clockNow` BEFORE the await of
`decodeAudioData` — when decoding fails the exception aborts the rest of
the handler (there is no try/catch), so the interruption check is skipped
but the clock bump has already happened; on success the source node is
started at the bumped time, `nextStartTime` advances by the buffer's
duration and the node joins the registry; finally the interruption flag is
processed. -/
def onmessage (clockNow : ℚ) (m : LiveServerMessage) (s : AppState) :
    AppState × List Effect :=
  let s1 := handleText m s
  match m.audioData with
  | some bytes =>
    let nst := max s1.nextStartTime clockNow
    match decodeAudioData bytes 24000 1 with
    | none => ({ s1 with nextStartTime := nst }, [])
    | some buf =>
      let src : ScheduledSource := ⟨s1.nextSourceId, nst, buf.duration⟩
      let s2 := { s1 with
        nextStartTime := nst + buf.duration
        sources := s1.sources ++ [src]
        nextSourceId := s1.nextSourceId + 1 }
      handleInterrupted m s2 [Effect.sourceStarted src.id nst]
  | none => handleInterrupted m s1 []

/-- The `onclose` callback (lines 195-198): only sets `isConnected := false`. -/
def onclose (s : AppState) : AppState := { s with isConnected := false }

/-- The `onerror` callback (lines 199-202): only surfaces an error message. -/
def onerror (s : AppState) : AppState :=
  { s with error := some "Connection error." }

/-- Function `startLiveSession` (lines 74-221), with the microphone outcome as a
parameter (`micOk = false` means `getUserMedia` rejected) and `micTracks`
the number of tracks of the granted stream.  The guard at line 75 returns
unchanged when no config or no questions; otherwise the phase becomes
PLAYING and the fresh output context is stored BEFORE the try block.
Inside the try, `getUserMedia` runs first; only after it succeeds is
`ai.live.connect` reached (the `transportOpen` effect).  On rejection the
catch sets the error text and returns the phase to SETUP — no transport is
opened.  (`isConnected` is only set later by the async `onopen`
callback, hence not here.) -/
def startLiveSession (micOk : Bool) (micTracks : ℕ) (s : AppState) :
    AppState × List Effect :=
  if s.config.isNone ∨ s.questions.isEmpty then (s, [])
  else
    let s1 := { s with phase := GamePhase.PLAYING, audioCtxOpen := some true }
    if micOk then
      ({ s1 with stream := some (List.replicate micTracks false) },
       [Effect.transportOpen])
    else
      ({ s1 with
          error := some "Microphone access denied or API error."
          phase := GamePhase.SETUP },
       [])

/-! ## Question generation (`src/services/geminiService.ts`).

`generateQuestions` feeds the model's response text to `JSON.parse`,
preferring the contents of a fenced ```json block when the regex
/```json\s*([\s\S]*?)\s*```/ matches with a truthy capture.  `JSON.parse`
is the host platform's JSON parser; it is embedded below as a total
recursive-descent parser (escape sequences other than the single-character
ones and numeric exponents are simplified — no claim depends on them). -/

/-- A parsed JSON value. -/
inductive Json where
  | null
  | bool (b : Bool)
  | num (n : ℚ)
  | str (s : String)
  | arr (xs : List Json)
  | obj (kvs : List (String × Json))
deriving Repr

/-- Drop leading JSON whitespace. -/
def skipWs (cs : List Char) : List Char := cs.dropWhile Char.isWhitespace

/-- Body of a JSON string after the opening quote: returns the content and
the remainder after the closing quote.  A backslash escapes the next
character (the common single-character escapes; `\u` is simplified). -/
def parseStringBody : List Char → Option (List Char × List Char)
  | [] => none
  | c :: rest =>
    if c = '"' then some ([], rest)
    else if c = '\\' then
      match rest with
      | [] => none
      | e :: rest2 =>
        (parseStringBody rest2).map fun p =>
          (((if e = 'n' then '\n' else if e = 't' then '\t'
             else if e = 'r' then '\r' else e)) :: p.1, p.2)
    else
      (parseStringBody rest).map fun p => (c :: p.1, p.2)

/-- Numeric value of a digit run. -/
def digitsToNat (ds : List Char) : ℕ :=
  ds.foldl (fun a c => 10 * a + (c.toNat - 48)) 0

/-- A JSON number: optional minus, integer digits, optional fraction. -/
def parseNumber (cs : List Char) : Option (ℚ × List Char) :=
  let p := match cs with
    | '-' :: t => (true, t)
    | _ => (false, cs)
  let ds := p.2.takeWhile Char.isDigit
  let cs2 := p.2.dropWhile Char.isDigit
  if ds.isEmpty then none
  else
    let intPart : ℚ := (digitsToNat ds : ℚ)
    let q := match cs2 with
      | '.' :: t =>
        let fs := t.takeWhile Char.isDigit
        if fs.isEmpty then (intPart, cs2)
        else (intPart + (digitsToNat fs : ℚ) / ((10 : ℚ) ^ fs.length),
              t.dropWhile Char.isDigit)
      | _ => (intPart, cs2)
    some (if p.1 then -q.1 else q.1, q.2)

/-- Consume an expected literal. -/
def expectLit (lit cs : List Char) : Option (List Char) :=
  if lit.isPrefixOf cs then some (cs.drop lit.length) else none

mutual

/-- One JSON value (fuel-bounded recursive descent). -/
def parseValue : ℕ → List Char → Option (Json × List Char)
  | 0, _ => none
  | fuel + 1, cs =>
    match skipWs cs with
    | [] => none
    | c :: rest =>
      if c = 'n' then (expectLit ['u', 'l', 'l'] rest).map fun r => (Json.null, r)
      else if c = 't' then (expectLit ['r', 'u', 'e'] rest).map fun r => (Json.bool true, r)
      else if c = 'f' then (expectLit ['a', 'l', 's', 'e'] rest).map fun r => (Json.bool false, r)
      else if c = '"' then (parseStringBody rest).map fun p => (Json.str ⟨p.1⟩, p.2)
      else if c = '[' then
        match skipWs rest with
        | ']' :: rem => some (Json.arr [], rem)
        | _ => (parseElems fuel rest).map fun p => (Json.arr p.1, p.2)
      else if c = '\x7b' then
        match skipWs rest with
        | '\x7d' :: rem => some (Json.obj [], rem)
        | _ => (parseMembers fuel rest).map fun p => (Json.obj p.1, p.2)
      else (parseNumber (c :: rest)).map fun p => (Json.num p.1, p.2)

/-- Comma-separated array elements up to the closing bracket. -/
def parseElems : ℕ → List Char → Option (List Json × List Char)
  | 0, _ => none
  | fuel + 1, cs =>
    match parseValue fuel cs with
    | none => none
    | some (v, rem) =>
      match skipWs rem with
      | ',' :: rem2 => (parseElems fuel rem2).map fun p => (v :: p.1, p.2)
      | ']' :: rem2 => some ([v], rem2)
      | _ => none

/-- Comma-separated object members up to the closing brace. -/
def parseMembers : ℕ → List Char → Option (List (String × Json) × List Char)
  | 0, _ => none
  | fuel + 1, cs =>
    match skipWs cs with
    | '"' :: rest =>
      match parseStringBody rest with
      | none => none
      | some (k, rem) =>
        match skipWs rem with
        | ':' :: rem2 =>
          match parseValue fuel rem2 with
          | none => none
          | some (v, rem3) =>
            match skipWs rem3 with
            | ',' :: rem4 =>
              (parseMembers fuel rem4).map fun p => ((⟨k⟩, v) :: p.1, p.2)
            | '\x7d' :: rem4 => some ([(⟨k⟩, v)], rem4)
            | _ => none
        | _ => none
    | _ => none

end

/-- Embedding of `JSON.parse`: one JSON value covering the whole text (trailing
whitespace allowed), `none` where `JSON.parse` would throw. -/
def parseJsonText (s : String) : Option Json :=
  match parseValue (2 * s.length + 2) s.toList with
  | some (v, rem) => if skipWs rem = [] then some v else none
  | none => none

/-- Suffix following the first occurrence of `pat`, `none` if absent. -/
def afterFirst (pat : List Char) : List Char → Option (List Char)
  | [] => if pat.isEmpty then some [] else none
  | c :: rest =>
    if pat.isPrefixOf (c :: rest) then some ((c :: rest).drop pat.length)
    else afterFirst pat rest

/-- Characters before the first occurrence of `pat`, `none` if absent. -/
def beforeFirst (pat : List Char) : List Char → Option (List Char)
  | [] => if pat.isEmpty then some [] else none
  | c :: rest =>
    if pat.isPrefixOf (c :: rest) then some []
    else (beforeFirst pat rest).map fun t => c :: t

/-- Strip leading and trailing whitespace. -/
def trimWs (cs : List Char) : List Char :=
  ((cs.dropWhile Char.isWhitespace).reverse.dropWhile Char.isWhitespace).reverse

/-- The capture group of /```json\s*([\s\S]*?)\s*```/ (geminiService.ts
line 42): text between the first "```json" and the next "```", with
surrounding whitespace absorbed by the greedy \s* on either side of the
lazy capture. -/
def matchFencedJson (text : String) : Option String :=
  match afterFirst "```json".toList text.toList with
  | none => none
  | some rest =>
    match beforeFirst "```".toList rest with
    | none => none
    | some body => some ⟨trimWs body⟩

/-- The string handed to `JSON.parse` (lines 42-47): the fenced block when
`jsonMatch && jsonMatch[1]` is truthy (a match with non-empty capture),
otherwise the whole response text. -/
def extractCandidate (text : String) : String :=
  match matchFencedJson text with
  | some block => if block = "" then text else block
  | none => text

/-- The fallback question object built in the catch block (lines 52-56). -/
def fallbackQuestion (topic : String) : Json :=
  Json.obj
    [("question",
      Json.str ("I couldn\x27t auto-generate specific questions about " ++ topic
        ++ ", but let\x27s play anyway! What is the main thing you know about "
        ++ topic ++ "?")),
     ("answer", Json.str "N/A"),
     ("context", Json.str "Sometimes even AI has a hiccup!")]

/-- The value assigned to `questions` in `generateQuestions` (lines
40-57): the raw `JSON.parse` result — used unchecked, whatever JSON value
it is — or, only when parsing throws, a one-element fallback list. -/
def questionsFromResponse (topic text : String) : Json :=
  match parseJsonText (extractCandidate text) with
  | some v => v
  | none => Json.arr [fallbackQuestion topic]

/-- Whether a parsed value is a non-empty question list. -/
def isNonEmptyQuestionList : Json → Bool
  | Json.arr (_ :: _) => true
  | _ => false

/-! ## Basic lemmas about the handlers -/

/-- Lemma: `handleText` only ever appends to the transcript and leaves every
other field alone. -/
lemma handleText_spec (m : LiveServerMessage) (s : AppState) :
    handleText m s =
      { s with transcript := s.transcript ++
          (match m.text with
           | some t => if t = "" then [] else [⟨Role.model, t⟩]
           | none => []) } := by
  unfold handleText
  cases m.text with
  | none => simp
  | some t => by_cases h : t = "" <;> simp [h]

/-- Lemma: `handleInterrupted` never touches the transcript, phase,
connection flag, stream or context. -/
lemma handleInterrupted_preserves (m : LiveServerMessage) (s : AppState)
    (effs : List Effect) :
    (handleInterrupted m s effs).1.transcript = s.transcript ∧
    (handleInterrupted m s effs).1.phase = s.phase ∧
    (handleInterrupted m s effs).1.isConnected = s.isConnected ∧
    (handleInterrupted m s effs).1.stream = s.stream ∧
    (handleInterrupted m s effs).1.audioCtxOpen = s.audioCtxOpen := by
  unfold handleInterrupted
  by_cases h : m.interrupted <;> simp [h]

/-- Lemma: the transcript after `onmessage` is exactly the transcript after
its `handleText` step (the audio and interruption steps never touch it). -/
lemma onmessage_transcript (clockNow : ℚ) (m : LiveServerMessage)
    (s : AppState) :
    (onmessage clockNow m s).1.transcript = (handleText m s).transcript := by
  unfold onmessage
  cases hA : m.audioData with
  | none => exact (handleInterrupted_preserves m _ _).1
  | some bytes =>
    cases hD : decodeAudioData bytes 24000 1 with
    | none => simp only [hD]
    | some buf => simp only [hD]; exact (handleInterrupted_preserves m _ _).1

/-- Lemma: on a message whose audio payload decodes, `onmessage` starts one
new source at `max nextStartTime clockNow`, appends it to the registry and
advances `nextStartTime` by the buffer's duration. -/
lemma onmessage_audio_ok (clockNow : ℚ) (m : LiveServerMessage)
    (s : AppState) (bytes : List ℕ) (buf : AudioBuf)
    (hA : m.audioData = some bytes)
    (hD : decodeAudioData bytes 24000 1 = some buf)
    (hI : m.interrupted = false) :
    onmessage clockNow m s =
      ({ handleText m s with
          nextStartTime := max s.nextStartTime clockNow + buf.duration
          sources := s.sources ++
            [⟨s.nextSourceId, max s.nextStartTime clockNow, buf.duration⟩]
          nextSourceId := s.nextSourceId + 1 },
       [Effect.sourceStarted s.nextSourceId (max s.nextStartTime clockNow)]) := by
  unfold onmessage handleInterrupted
  simp only [hA, hD, hI, handleText_spec]
  simp

/-- Lemma: on a message whose audio payload fails to decode, the handler
aborts after the clock bump: no source is started, no effect is emitted,
the interruption flag is never examined, and `nextStartTime` has already
been set to `max nextStartTime clockNow`. -/
lemma onmessage_audio_bad (clockNow : ℚ) (m : LiveServerMessage)
    (s : AppState) (bytes : List ℕ)
    (hA : m.audioData = some bytes)
    (hD : decodeAudioData bytes 24000 1 = none) :
    onmessage clockNow m s =
      ({ handleText m s with
          nextStartTime := max s.nextStartTime clockNow }, []) := by
  unfold onmessage
  simp only [hA, hD, handleText_spec]

/-- Lemma: on a pure interruption signal (no audio payload), `onmessage`
stops every registered source, clears the registry and resets
`nextStartTime` to 0. -/
lemma onmessage_interrupted (clockNow : ℚ) (m : LiveServerMessage)
    (s : AppState)
    (hA : m.audioData = none)
    (hI : m.interrupted = true) :
    onmessage clockNow m s =
      ({ handleText m s with sources := [], nextStartTime := 0 },
       s.sources.map fun src => Effect.sourceStop src.id) := by
  unfold onmessage handleInterrupted
  simp only [hA, hI, handleText_spec]
  simp

/-- Lemma: on a message with neither audio nor interruption, `onmessage`
only runs the transcript step. -/
lemma onmessage_text_only (clockNow : ℚ) (m : LiveServerMessage)
    (s : AppState)
    (hA : m.audioData = none)
    (hI : m.interrupted = false) :
    onmessage clockNow m s = (handleText m s, []) := by
  unfold onmessage handleInterrupted
  simp only [hA, hI]
  simp

/-! ## Codec lemmas -/

/-- Lemma: `qtrunc` on a non-negative rational is the floor. -/
lemma qtrunc_of_nonneg {q : ℚ} (h : 0 ≤ q) : qtrunc q = ⌊q⌋ := if_pos h

/-- Lemma: `qtrunc` on a negative rational is the ceiling. -/
lemma qtrunc_of_neg {q : ℚ} (h : q < 0) : qtrunc q = ⌈q⌉ :=
  if_neg (not_le.mpr h)

/-- Lemma: clamping is the identity on [-1, 1]. -/
lemma clamp1_eq_self {x : ℚ} (h1 : -1 ≤ x) (h2 : x ≤ 1) : clamp1 x = x := by
  unfold clamp1
  rw [min_eq_right h2, max_eq_right h1]

/-- Lemma: the clamped value lies in [-1, 1]. -/
lemma clamp1_mem (x : ℚ) : -1 ≤ clamp1 x ∧ clamp1 x ≤ 1 := by
  unfold clamp1
  refine ⟨le_max_left _ _, max_le (by norm_num) (min_le_left _ _)⟩

/-- Lemma: every encoded sample fits in a signed 16-bit integer. -/
lemma encodeSample_bounds (x : ℚ) :
    -32768 ≤ encodeSample x ∧ encodeSample x ≤ 32767 := by
  obtain ⟨hl, hr⟩ := clamp1_mem x
  unfold encodeSample
  split
  case isTrue h =>
    rw [qtrunc_of_nonneg (by positivity)]
    constructor
    · have : (0 : ℤ) ≤ ⌊clamp1 x * 32767⌋ :=
        Int.floor_nonneg.mpr (by positivity)
      omega
    · have h1 : clamp1 x * 32767 ≤ (32767 : ℚ) := by nlinarith
      have := Int.floor_le_floor h1
      simpa using this
  case isFalse h =>
    push_neg at h
    rw [qtrunc_of_neg (by nlinarith)]
    constructor
    · have h1 : (-32768 : ℚ) ≤ clamp1 x * 32768 := by nlinarith
      have := Int.ceil_le_ceil h1
      simpa using this
    · have h1 : clamp1 x * 32768 ≤ (0 : ℚ) := by nlinarith
      have : ⌈clamp1 x * 32768⌉ ≤ ⌈(0 : ℚ)⌉ := Int.ceil_le_ceil h1
      simpa using this.trans (by norm_num)

/-- Lemma: decoding the little-endian byte pair of a 16-bit value recovers
it. -/
lemma toInt16_pair (n : ℤ) (h1 : -32768 ≤ n) (h2 : n ≤ 32767) :
    toInt16 ((n % 65536).toNat % 256 + 256 * ((n % 65536).toNat / 256)) = n := by
  have h0 : 0 ≤ n % 65536 := Int.emod_nonneg n (by norm_num)
  have hcast : (((n % 65536).toNat : ℤ)) = n % 65536 := Int.toNat_of_nonneg h0
  rw [Nat.mod_add_div]
  unfold toInt16
  split
  case isTrue hlt => omega
  case isFalse hge => omega

/-- Lemma: the sample recovered from an encoded sample's byte pair is the
quantized value divided by 0x8000. -/
lemma bytePair_int16ToBytes (n : ℤ) (h1 : -32768 ≤ n) (h2 : n ≤ 32767) :
    bytePairToSample ((n % 65536).toNat % 256) ((n % 65536).toNat / 256) =
      ((n : ℤ) : ℚ) / 32768 := by
  unfold bytePairToSample
  rw [toInt16_pair n h1 h2]

/-- Lemma: decoding an encoded sample list yields, pointwise, each
quantized sample divided by 0x8000. -/
lemma pcmBytesToSamples_encode (xs : List ℚ) :
    pcmBytesToSamples (encode xs) =
      xs.map fun x => ((encodeSample x : ℤ) : ℚ) / 32768 := by
  induction xs with
  | nil => rfl
  | cons x xs ih =>
    obtain ⟨hb1, hb2⟩ := encodeSample_bounds x
    simp only [encode, List.flatMap_cons] at ih ⊢
    simp only [int16ToBytes]
    simpa [pcmBytesToSamples, bytePair_int16ToBytes _ hb1 hb2, List.map_cons]
      using ih

/-- Lemma: quantize-then-decode moves a sample of [-1, 1] by at most
1/16384. -/
lemma encodeSample_error (x : ℚ) (h1 : -1 ≤ x) (h2 : x ≤ 1) :
    |((encodeSample x : ℤ) : ℚ) / 32768 - x| ≤ 1 / 16384 := by
  unfold encodeSample
  rw [clamp1_eq_self h1 h2]
  split
  case isTrue h =>
    rw [qtrunc_of_nonneg (by positivity)]
    have hle : ((⌊x * 32767⌋ : ℤ) : ℚ) ≤ x * 32767 := Int.floor_le _
    have hgt : x * 32767 - 1 < ((⌊x * 32767⌋ : ℤ) : ℚ) := Int.sub_one_lt_floor _
    rw [abs_le]
    constructor <;> linarith
  case isFalse h =>
    push_neg at h
    rw [qtrunc_of_neg (by nlinarith)]
    have hle : (x * 32768 : ℚ) ≤ ((⌈x * 32768⌉ : ℤ) : ℚ) := Int.le_ceil _
    have hlt : ((⌈x * 32768⌉ : ℤ) : ℚ) < x * 32768 + 1 := Int.ceil_lt_add_one _
    rw [abs_le]
    constructor <;> linarith

/-- Lemma: a pair of zero bytes decodes to the zero sample. -/
lemma bytePairToSample_zero : bytePairToSample 0 0 = 0 := by
  norm_num [bytePairToSample, toInt16]

/-- Lemma: `2 * n` zero bytes decode to `n` zero samples. -/
lemma pcmBytesToSamples_replicate_zero (n : ℕ) :
    pcmBytesToSamples (List.replicate (2 * n) 0) = List.replicate n 0 := by
  induction n with
  | zero => rfl
  | succ k ih =>
    have h : 2 * (k + 1) = (2 * k) + 1 + 1 := by ring
    rw [h, List.replicate_succ, List.replicate_succ]
    simpa [pcmBytesToSamples, bytePairToSample_zero, List.replicate_succ]
      using ih

/-- Lemma: the zero sample encodes to two zero bytes. -/
lemma encodeSample_zero : encodeSample 0 = 0 := by
  have hc : clamp1 (0 : ℚ) = 0 := clamp1_eq_self (by norm_num) (by norm_num)
  unfold encodeSample
  rw [hc]
  norm_num [qtrunc_of_nonneg]

/-- Lemma: encoding `n` zero samples yields `2 * n` zero bytes. -/
lemma encode_replicate_zero (n : ℕ) :
    encode (List.replicate n 0) = List.replicate (2 * n) 0 := by
  induction n with
  | zero => rfl
  | succ k ih =>
    have h : 2 * (k + 1) = 1 + 1 + 2 * k := by ring
    rw [List.replicate_succ, h, List.replicate_add, List.replicate_add]
    simp [encode, List.flatMap_cons, int16ToBytes, encodeSample_zero] at ih ⊢
    simpa using ih

/-- Lemma: decoding `2 * n` zero bytes as 24 kHz mono yields a buffer of
`n` zero samples. -/
lemma decodeAudioData_replicate_zero (n : ℕ) :
    decodeAudioData (List.replicate (2 * n) 0) 24000 1 =
      some ⟨List.replicate n 0, 24000, 1⟩ := by
  unfold decodeAudioData
  rw [if_pos (by simp [List.length_replicate, Nat.mul_mod_right])]
  rw [pcmBytesToSamples_replicate_zero]

/-- Lemma: the duration of an `n`-sample 24 kHz mono buffer is `n / 24000`
seconds. -/
lemma duration_replicate_zero (n : ℕ) :
    AudioBuf.duration ⟨List.replicate n 0, 24000, 1⟩ = (n : ℚ) / 24000 := by
  simp [AudioBuf.duration]

/-! ## Example states -/

/-- A representative live-session state: connected, one open microphone
track, open output context, empty registry, playback clock at 0. -/
def playingState : AppState :=
  { phase := GamePhase.PLAYING
    config := some ⟨"Space Exploration", "enthusiastic"⟩
    questions := [⟨"Q", "A", "C"⟩]
    error := none
    stream := some [false]
    audioCtxOpen := some true
    nextStartTime := 0
    sources := []
    nextSourceId := 0
    isConnected := true
    transcript := [] }

/-! ## Claims -/

/-- Lemma: `handleText` is the identity when the message has no text part. -/
lemma handleText_none {m : LiveServerMessage} (s : AppState)
    (hm : m.text = none) : handleText m s = s := by
  rw [handleText_spec, hm]
  simp

/-- C1: every decoded audio buffer accepted for playback is started at
`max(nextStartTime, clockNow)`, and afterwards `nextStartTime` equals that
start time plus the buffer's duration; concretely, starting from
`nextStartTime = 0`, a 1.0 s buffer (48000 bytes) arriving at output-clock
time 0.0 starts at 0.0, and a 0.5 s buffer (24000 bytes) arriving at
output-clock time 0.3 starts at 1.0 — back to back, no overlap, no gap. -/
theorem c1_enqueue_schedules_at_max_then_advances :
    (∀ (s : AppState) (clockNow : ℚ) (m : LiveServerMessage)
       (bytes : List ℕ) (buf : AudioBuf),
       m.audioData = some bytes →
       decodeAudioData bytes 24000 1 = some buf →
       m.interrupted = false →
       (onmessage clockNow m s).2 =
         [Effect.sourceStarted s.nextSourceId (max s.nextStartTime clockNow)] ∧
       (onmessage clockNow m s).1.nextStartTime =
         max s.nextStartTime clockNow + buf.duration) ∧
    ((onmessage 0 ⟨none, some (List.replicate 48000 0), false⟩
        playingState).2 = [Effect.sourceStarted 0 0] ∧
     (onmessage (3/10) ⟨none, some (List.replicate 24000 0), false⟩
        (onmessage 0 ⟨none, some (List.replicate 48000 0), false⟩
          playingState).1).2 = [Effect.sourceStarted 1 1] ∧
     (onmessage (3/10) ⟨none, some (List.replicate 24000 0), false⟩
        (onmessage 0 ⟨none, some (List.replicate 48000 0), false⟩
          playingState).1).1.sources = [⟨0, 0, 1⟩, ⟨1, 1, 1/2⟩] ∧
     (onmessage (3/10) ⟨none, some (List.replicate 24000 0), false⟩
        (onmessage 0 ⟨none, some (List.replicate 48000 0), false⟩
          playingState).1).1.nextStartTime = 3/2) := by
  have d1 : decodeAudioData (List.replicate 48000 0) 24000 1 =
      some ⟨List.replicate 24000 0, 24000, 1⟩ := by
    have h := decodeAudioData_replicate_zero 24000
    norm_num at h
    exact h
  have d2 : decodeAudioData (List.replicate 24000 0) 24000 1 =
      some ⟨List.replicate 12000 0, 24000, 1⟩ := by
    have h := decodeAudioData_replicate_zero 12000
    norm_num at h
    exact h
  have dur1 : AudioBuf.duration ⟨List.replicate 24000 0, 24000, 1⟩ = 1 := by
    rw [duration_replicate_zero]; norm_num
  have dur2 : AudioBuf.duration ⟨List.replicate 12000 0, 24000, 1⟩ = 1/2 := by
    rw [duration_replicate_zero]; norm_num
  have r1 : onmessage 0 ⟨none, some (List.replicate 48000 0), false⟩
      playingState =
      ({ playingState with
          nextStartTime := 1
          sources := [⟨0, 0, 1⟩]
          nextSourceId := 1 },
       [Effect.sourceStarted 0 0]) := by
    rw [onmessage_audio_ok _ _ _ _ _ rfl d1 rfl, handleText_none _ rfl, dur1]
    norm_num [playingState]
  have r2 : onmessage (3/10) ⟨none, some (List.replicate 24000 0), false⟩
      ({ playingState with
          nextStartTime := 1
          sources := [⟨0, 0, 1⟩]
          nextSourceId := 1 }) =
      ({ playingState with
          nextStartTime := 3/2
          sources := [⟨0, 0, 1⟩, ⟨1, 1, 1/2⟩]
          nextSourceId := 2 },
       [Effect.sourceStarted 1 1]) := by
    rw [onmessage_audio_ok _ _ _ _ _ rfl d2 rfl, handleText_none _ rfl, dur2]
    norm_num [playingState]
  refine ⟨?_, ?_, ?_, ?_, ?_⟩
  · intro s clockNow m bytes buf hA hD hI
    rw [onmessage_audio_ok clockNow m s bytes buf hA hD hI]
    exact ⟨rfl, rfl⟩
  · rw [r1]
  · rw [r1, r2]
  · rw [r1, r2]
  · rw [r1, r2]

/-- Witness for C1: a two-byte silent fragment enqueued at output-clock
time 7 on the initial state. -/
theorem c1_enqueue_schedules_at_max_then_advances_witness :
    decodeAudioData [0, 0] 24000 1 = some ⟨[0], 24000, 1⟩ ∧
    ((onmessage 7 ⟨none, some [0, 0], false⟩ initialState).2 =
       [Effect.sourceStarted initialState.nextSourceId
          (max initialState.nextStartTime 7)] ∧
     (onmessage 7 ⟨none, some [0, 0], false⟩ initialState).1.nextStartTime =
       max initialState.nextStartTime 7 +
         AudioBuf.duration ⟨[0], 24000, 1⟩) := by
  have hdec : decodeAudioData [0, 0] 24000 1 = some ⟨[0], 24000, 1⟩ := by
    simp [decodeAudioData, pcmBytesToSamples, bytePairToSample_zero]
  exact ⟨hdec, c1_enqueue_schedules_at_max_then_advances.1 initialState 7 _
    [0, 0] ⟨[0], 24000, 1⟩ rfl hdec rfl⟩

/-- C2: handling an interruption signal stops every source currently in
the registry, empties the registry and resets `nextStartTime` to 0; an
enqueue performed on any state whose `nextStartTime` is 0 — as it is
right after an interruption — is scheduled at the current output clock
time, not at any stale future time. -/
theorem c2_interrupt_stops_all_and_resets :
    (∀ (s : AppState) (clockNow : ℚ) (m : LiveServerMessage),
       m.interrupted = true →
       m.audioData = none →
       (onmessage clockNow m s).1.sources = [] ∧
       (onmessage clockNow m s).1.nextStartTime = 0 ∧
       (onmessage clockNow m s).2 =
         s.sources.map fun src => Effect.sourceStop src.id) ∧
    (∀ (s : AppState) (clockNow : ℚ) (m : LiveServerMessage)
       (bytes : List ℕ) (buf : AudioBuf),
       s.nextStartTime = 0 →
       0 ≤ clockNow →
       m.audioData = some bytes →
       decodeAudioData bytes 24000 1 = some buf →
       m.interrupted = false →
       (onmessage clockNow m s).2 =
         [Effect.sourceStarted s.nextSourceId clockNow]) := by
  constructor
  · intro s clockNow m hI hA
    rw [onmessage_interrupted clockNow m s hA hI]
    exact ⟨rfl, rfl, rfl⟩
  · intro s clockNow m bytes buf h0 hc hA hD hI
    rw [onmessage_audio_ok clockNow m s bytes buf hA hD hI, h0,
      max_eq_right hc]

/-- A live state with three sources registered and the playback timeline
at 3 seconds, as in the specification's interruption scenario. -/
def threeSourcesState : AppState :=
  { playingState with
      sources := [⟨0, 0, 1⟩, ⟨1, 1, 1⟩, ⟨2, 2, 1⟩]
      nextSourceId := 3
      nextStartTime := 3 }

/-- Witness for C2: interrupting with three registered sources, then
enqueueing a fragment at clock time 0 on the reset state. -/
theorem c2_interrupt_stops_all_and_resets_witness :
    ((onmessage 5 ⟨none, none, true⟩ threeSourcesState).1.sources = [] ∧
     (onmessage 5 ⟨none, none, true⟩ threeSourcesState).1.nextStartTime = 0 ∧
     (onmessage 5 ⟨none, none, true⟩ threeSourcesState).2 =
       threeSourcesState.sources.map fun src => Effect.sourceStop src.id) ∧
    (decodeAudioData [0, 0] 24000 1 = some ⟨[0], 24000, 1⟩ ∧
     (onmessage 0 ⟨none, some [0, 0], false⟩
        { threeSourcesState with sources := [], nextStartTime := 0 }).2 =
       [Effect.sourceStarted 3 0]) := by
  have hdec : decodeAudioData [0, 0] 24000 1 = some ⟨[0], 24000, 1⟩ := by
    simp [decodeAudioData, pcmBytesToSamples, bytePairToSample_zero]
  refine ⟨c2_interrupt_stops_all_and_resets.1 threeSourcesState 5
    ⟨none, none, true⟩ rfl rfl, hdec, ?_⟩
  exact c2_interrupt_stops_all_and_resets.2
    { threeSourcesState with sources := [], nextStartTime := 0 } 0
    ⟨none, some [0, 0], false⟩ [0, 0] ⟨[0], 24000, 1⟩ rfl (le_refl 0) rfl
    hdec rfl

/-- C4 counterexample: `endSession` on a live state whose playback
timeline stands at 5 seconds leaves `nextStartTime` at 5 — it does not
reset it to 0 the way the interruption handler does. -/
theorem c4_endSession_keeps_clock_counterexample :
    (endSession { playingState with
        nextStartTime := 5
        sources := [⟨0, 0, 1⟩]
        nextSourceId := 1 }).1.nextStartTime = 5 ∧
    (5 : ℚ) ≠ 0 := by
  exact ⟨rfl, by norm_num⟩

/-- C4 amended: `endSession` stops every registered source, empties the
registry, stops every microphone track, closes the output audio context
when one is open and clears the connection flag — but, unlike the
interruption handler, it leaves `nextStartTime` untouched. -/
theorem c4_endSession_releases_but_keeps_clock (s : AppState) :
    (endSession s).1.sources = [] ∧
    (endSession s).1.isConnected = false ∧
    (endSession s).1.nextStartTime = s.nextStartTime ∧
    (endSession s).1.stream =
      s.stream.map (fun tracks => tracks.map fun _ => true) ∧
    (endSession s).1.audioCtxOpen = s.audioCtxOpen.map (fun _ => false) ∧
    (∀ src ∈ s.sources, Effect.sourceStop src.id ∈ (endSession s).2) ∧
    (s.audioCtxOpen.isSome → Effect.ctxClose ∈ (endSession s).2) := by
  refine ⟨rfl, rfl, rfl, rfl, rfl, ?_, ?_⟩
  · intro src hsrc
    unfold endSession
    simp only [List.mem_append]
    right
    exact List.mem_map.mpr ⟨src, hsrc, rfl⟩
  · intro hctx
    unfold endSession
    simp only [List.mem_append]
    left; right
    cases h : s.audioCtxOpen with
    | none => rw [h] at hctx; simp at hctx
    | some b => simp

/-- Witness for C4 (amended): the registered source is stopped and the
open context is closed on a concrete live state. -/
theorem c4_endSession_releases_but_keeps_clock_witness :
    Effect.sourceStop 0 ∈ (endSession { playingState with
        nextStartTime := 5
        sources := [⟨0, 0, 1⟩]
        nextSourceId := 1 }).2 ∧
    Effect.ctxClose ∈ (endSession { playingState with
        nextStartTime := 5
        sources := [⟨0, 0, 1⟩]
        nextSourceId := 1 }).2 := by
  refine ⟨(c4_endSession_releases_but_keeps_clock _).2.2.2.2.2.1 ⟨0, 0, 1⟩
    (by simp), (c4_endSession_releases_but_keeps_clock _).2.2.2.2.2.2 rfl⟩

/-- C5 counterexample: with the session live, the transport-closed
callback leaves the phase at PLAYING — not ENDED — with the microphone
stream and output context still open, and the transport-error callback
surfaces an error but also leaves the phase at PLAYING. -/
theorem c5_no_ended_transition_counterexample :
    (onclose playingState).phase = GamePhase.PLAYING ∧
    GamePhase.PLAYING ≠ GamePhase.ENDED ∧
    (onclose playingState).stream = some [false] ∧
    (onclose playingState).audioCtxOpen = some true ∧
    (onerror playingState).phase = GamePhase.PLAYING ∧
    (onerror playingState).error = some "Connection error." :=
  ⟨rfl, by decide, rfl, rfl, rfl, rfl⟩

/-- C5 amended: on transport close only the connected flag is cleared,
and on transport error only a user-visible error message is surfaced;
neither callback transitions the phase to ENDED, stops the stream, closes
the context, or touches the playback scheduler. -/
theorem c5_transport_callbacks_only_flag_and_error (s : AppState) :
    (onclose s).isConnected = false ∧
    (onclose s).phase = s.phase ∧
    (onclose s).stream = s.stream ∧
    (onclose s).audioCtxOpen = s.audioCtxOpen ∧
    (onclose s).sources = s.sources ∧
    (onclose s).nextStartTime = s.nextStartTime ∧
    (onerror s).error = some "Connection error." ∧
    (onerror s).phase = s.phase ∧
    (onerror s).stream = s.stream ∧
    (onerror s).sources = s.sources ∧
    (onerror s).isConnected = s.isConnected :=
  ⟨rfl, rfl, rfl, rfl, rfl, rfl, rfl, rfl, rfl, rfl, rfl⟩

/-- Lemma: `handleText` preserves every field other than the transcript. -/
lemma handleText_fields (m : LiveServerMessage) (s : AppState) :
    (handleText m s).phase = s.phase ∧
    (handleText m s).sources = s.sources ∧
    (handleText m s).isConnected = s.isConnected ∧
    (handleText m s).nextStartTime = s.nextStartTime ∧
    (handleText m s).nextSourceId = s.nextSourceId := by
  rw [handleText_spec]
  exact ⟨rfl, rfl, rfl, rfl, rfl⟩

/-- A live state with one source registered. -/
def oneSourceState : AppState :=
  { playingState with sources := [⟨0, 0, 1⟩], nextSourceId := 1 }

/-- C6 counterexample: a malformed audio fragment (odd byte length)
arriving at output-clock time 2 is dropped and the session survives, but
the session state is NOT unchanged: `nextStartTime` has been bumped from
0 to 2, and the interruption flag carried by the same message is silently
skipped (the registered source is not stopped, no effect is emitted). -/
theorem c6_decode_failure_not_state_neutral_counterexample :
    (onmessage 2 ⟨none, some [7], true⟩ oneSourceState).1.nextStartTime = 2 ∧
    oneSourceState.nextStartTime = 0 ∧
    (onmessage 2 ⟨none, some [7], true⟩ oneSourceState).1.sources =
      [⟨0, 0, 1⟩] ∧
    (onmessage 2 ⟨none, some [7], true⟩ oneSourceState).2 = [] := by
  have hD : decodeAudioData [7] 24000 1 = none := by
    simp [decodeAudioData]
  rw [onmessage_audio_bad 2 _ _ _ rfl hD, handleText_none _ rfl]
  refine ⟨?_, rfl, rfl, rfl⟩
  show max oneSourceState.nextStartTime 2 = 2
  rw [show oneSourceState.nextStartTime = (0 : ℚ) from rfl,
    max_eq_right (by norm_num)]

/-- C6 amended: a fragment whose decode fails is dropped — no source is
started, nothing is stopped, registry, phase and connection flag are
unchanged — and the session continues: any later well-formed fragment is
still scheduled normally.  The failed fragment is, however, not entirely
state-neutral: `nextStartTime` has already been advanced to
`max nextStartTime clockNow`, and an interruption flag on the same
message is not processed. -/
theorem c6_decode_failure_drops_and_continues :
    ∀ (s : AppState) (clockNow : ℚ) (m : LiveServerMessage)
      (bytes : List ℕ),
      m.audioData = some bytes →
      decodeAudioData bytes 24000 1 = none →
      (onmessage clockNow m s).1.sources = s.sources ∧
      (onmessage clockNow m s).1.phase = s.phase ∧
      (onmessage clockNow m s).1.isConnected = s.isConnected ∧
      (onmessage clockNow m s).2 = [] ∧
      (onmessage clockNow m s).1.nextStartTime =
        max s.nextStartTime clockNow ∧
      (∀ (c2 : ℚ) (m2 : LiveServerMessage) (bytes2 : List ℕ)
         (buf2 : AudioBuf),
         m2.audioData = some bytes2 →
         decodeAudioData bytes2 24000 1 = some buf2 →
         m2.interrupted = false →
         (onmessage c2 m2 (onmessage clockNow m s).1).2 =
           [Effect.sourceStarted (onmessage clockNow m s).1.nextSourceId
             (max (onmessage clockNow m s).1.nextStartTime c2)]) := by
  intro s clockNow m bytes hA hD
  rw [onmessage_audio_bad clockNow m s bytes hA hD]
  obtain ⟨hp, hs, hic, hnst, hnid⟩ := handleText_fields m s
  refine ⟨hs, hp, hic, rfl, rfl, ?_⟩
  intro c2 m2 bytes2 buf2 hA2 hD2 hI2
  rw [onmessage_audio_ok c2 m2 _ bytes2 buf2 hA2 hD2 hI2]

/-- Witness for C6 (amended): the malformed single-byte fragment followed
by a well-formed silent fragment. -/
theorem c6_decode_failure_drops_and_continues_witness :
    decodeAudioData [7] 24000 1 = none ∧
    (onmessage 2 ⟨none, some [7], true⟩ oneSourceState).1.sources =
      oneSourceState.sources ∧
    (onmessage 2 ⟨none, some [7], true⟩ oneSourceState).2 = [] ∧
    (onmessage 0 ⟨none, some [0, 0], false⟩
       (onmessage 2 ⟨none, some [7], true⟩ oneSourceState).1).2 =
      [Effect.sourceStarted
        (onmessage 2 ⟨none, some [7], true⟩ oneSourceState).1.nextSourceId
        (max (onmessage 2 ⟨none, some [7], true⟩
          oneSourceState).1.nextStartTime 0)] := by
  have hD : decodeAudioData [7] 24000 1 = none := by
    simp [decodeAudioData]
  have hdec : decodeAudioData [0, 0] 24000 1 = some ⟨[0], 24000, 1⟩ := by
    simp [decodeAudioData, pcmBytesToSamples, bytePairToSample_zero]
  have h := c6_decode_failure_drops_and_continues oneSourceState 2
    ⟨none, some [7], true⟩ [7] rfl hD
  exact ⟨hD, h.1, h.2.2.2.1, h.2.2.2.2.2 0 ⟨none, some [0, 0], false⟩
    [0, 0] ⟨[0], 24000, 1⟩ rfl hdec rfl⟩

/-- C7: a (non-empty) text fragment appends exactly one entry with role
`model` and the fragment's text; every message leaves the previous
transcript as an unchanged prefix (append-only); two successive text
fragments appear in receipt order. -/
theorem c7_transcript_append_only :
    (∀ (clockNow : ℚ) (m : LiveServerMessage) (s : AppState) (t : String),
       m.text = some t → t ≠ "" →
       (onmessage clockNow m s).1.transcript =
         s.transcript ++ [⟨Role.model, t⟩]) ∧
    (∀ (clockNow : ℚ) (m : LiveServerMessage) (s : AppState),
       ∃ tail, (onmessage clockNow m s).1.transcript =
         s.transcript ++ tail) ∧
    (∀ (ca cb : ℚ) (ma mb : LiveServerMessage) (s : AppState)
       (ta tb : String),
       ma.text = some ta → ta ≠ "" → mb.text = some tb → tb ≠ "" →
       (onmessage cb mb (onmessage ca ma s).1).1.transcript =
         s.transcript ++ [⟨Role.model, ta⟩, ⟨Role.model, tb⟩]) := by
  have key : ∀ (clockNow : ℚ) (m : LiveServerMessage) (s : AppState)
      (t : String), m.text = some t → t ≠ "" →
      (onmessage clockNow m s).1.transcript =
        s.transcript ++ [⟨Role.model, t⟩] := by
    intro clockNow m s t hm ht
    rw [onmessage_transcript, handleText_spec, hm]
    simp [ht]
  refine ⟨key, ?_, ?_⟩
  · intro clockNow m s
    rw [onmessage_transcript, handleText_spec]
    exact ⟨_, rfl⟩
  · intro ca cb ma mb s ta tb ha ha' hb hb'
    rw [key cb mb _ tb hb hb', key ca ma s ta ha ha']
    simp

/-- Witness for C7: two text fragments received in order on the playing
state. -/
theorem c7_transcript_append_only_witness :
    (onmessage 0 ⟨some "Hello!", none, false⟩ playingState).1.transcript =
      playingState.transcript ++ [⟨Role.model, "Hello!"⟩] ∧
    (onmessage 1 ⟨some "Q1", none, false⟩
       (onmessage 0 ⟨some "Hello!", none, false⟩ playingState).1).1.transcript
      = playingState.transcript ++ [⟨Role.model, "Hello!"⟩,
          ⟨Role.model, "Q1"⟩] := by
  refine ⟨c7_transcript_append_only.1 0 _ playingState "Hello!" rfl
    (by decide), ?_⟩
  exact c7_transcript_append_only.2.2 0 1 _ _ playingState "Hello!" "Q1"
    rfl (by decide) rfl (by decide)

/-- C8: when the microphone is denied or unavailable, `startLiveSession`
surfaces the failure as a user-visible error, never opens a transport
connection, and returns the application to the setup phase. -/
theorem c8_mic_denied_recoverable :
    ∀ (s : AppState) (n : ℕ),
      s.config.isNone = false →
      s.questions.isEmpty = false →
      (startLiveSession false n s).1.phase = GamePhase.SETUP ∧
      (startLiveSession false n s).1.error =
        some "Microphone access denied or API error." ∧
      (startLiveSession false n s).2 = [] ∧
      Effect.transportOpen ∉ (startLiveSession false n s).2 := by
  intro s n hcfg hq
  unfold startLiveSession
  rw [if_neg (by simp [hcfg, hq])]
  exact ⟨rfl, rfl, rfl, by simp⟩

/-- Witness for C8: microphone denial on a ready-to-connect state. -/
theorem c8_mic_denied_recoverable_witness :
    (startLiveSession false 1 { initialState with
        phase := GamePhase.READY
        config := some ⟨"Space Exploration", "enthusiastic"⟩
        questions := [⟨"Q", "A", "C"⟩] }).1.phase = GamePhase.SETUP ∧
    (startLiveSession false 1 { initialState with
        phase := GamePhase.READY
        config := some ⟨"Space Exploration", "enthusiastic"⟩
        questions := [⟨"Q", "A", "C"⟩] }).1.error =
      some "Microphone access denied or API error." ∧
    Effect.transportOpen ∉ (startLiveSession false 1 { initialState with
        phase := GamePhase.READY
        config := some ⟨"Space Exploration", "enthusiastic"⟩
        questions := [⟨"Q", "A", "C"⟩] }).2 := by
  have h := c8_mic_denied_recoverable { initialState with
    phase := GamePhase.READY
    config := some ⟨"Space Exploration", "enthusiastic"⟩
    questions := [⟨"Q", "A", "C"⟩] } 1 rfl rfl
  exact ⟨h.1, h.2.1, h.2.2.2⟩

/-- C9: `endSession` is safe from every state — it is a total function,
idempotent on the application state, and a strict no-op on the
never-opened initial state (all refs null, registry empty). -/
theorem c9_endSession_idempotent_and_safe :
    (∀ s : AppState, (endSession (endSession s).1).1 = (endSession s).1) ∧
    endSession initialState = (initialState, []) := by
  constructor
  · intro s
    unfold endSession
    dsimp only
    congr 1
    · cases s.stream <;> simp
    · cases s.audioCtxOpen <;> simp
  · rfl

/-- Lemma: the quantize-then-decode map is within 1/16384 pointwise on
lists of samples in [-1, 1]. -/
lemma forall2_quantize_error :
    ∀ xs : List ℚ, (∀ x ∈ xs, -1 ≤ x ∧ x ≤ 1) →
      List.Forall₂ (fun d x => |d - x| ≤ 1 / 16384)
        (xs.map fun x => ((encodeSample x : ℤ) : ℚ) / 32768) xs := by
  intro xs
  induction xs with
  | nil => intro _; simp
  | cons x xs ih =>
    intro hmem
    simp only [List.map_cons]
    refine List.Forall₂.cons ?_ (ih fun y hy => hmem y (by simp [hy]))
    exact encodeSample_error x (hmem x (by simp)).1 (hmem x (by simp)).2

/-- C3 counterexample: the sample 65533/65536 lies in [-1, 1] but decoding
its encoding yields 32765/32768, which is 3/65536 away — more than the
claimed quantization bound 1/32767. -/
theorem c3_quantization_bound_counterexample :
    (-1 ≤ (65533 : ℚ) / 65536 ∧ (65533 : ℚ) / 65536 ≤ 1) ∧
    pcmBytesToSamples (encode [(65533 : ℚ) / 65536]) =
      [(32765 : ℚ) / 32768] ∧
    ¬ |(32765 : ℚ) / 32768 - 65533 / 65536| ≤ 1 / 32767 := by
  have he : encodeSample ((65533 : ℚ) / 65536) = 32765 := by
    unfold encodeSample
    rw [clamp1_eq_self (by norm_num) (by norm_num),
      if_pos (by norm_num : (0 : ℚ) ≤ 65533 / 65536),
      qtrunc_of_nonneg (by norm_num)]
    norm_num [Int.floor_eq_iff]
  refine ⟨⟨by norm_num, by norm_num⟩, ?_, ?_⟩
  · rw [pcmBytesToSamples_encode]
    simp only [List.map_cons, List.map_nil, he]
    norm_num
  · have hd : (32765 : ℚ) / 32768 - 65533 / 65536 = -(3 / 65536) := by
      norm_num
    rw [hd, abs_neg, abs_of_nonneg (by norm_num)]
    norm_num

/-- C3 amended (spec-modelled codec): decode∘encode reproduces every
sample sequence with values in [-1, 1] elementwise within 1/16384 — not
within 1/32767: encoding scales non-negative samples by 0x7FFF while
decoding divides by 0x8000, so the error on positive samples approaches
2/0x8000.  The silent-chunk facts hold as stated: 4096 zero samples
encode to 8192 zero bytes, which decode back to 4096 zero samples. -/
theorem c3_roundtrip_within_1_16384 :
    (∀ xs : List ℚ, (∀ x ∈ xs, -1 ≤ x ∧ x ≤ 1) →
       List.Forall₂ (fun d x => |d - x| ≤ 1 / 16384)
         (pcmBytesToSamples (encode xs)) xs) ∧
    encode (List.replicate 4096 0) = List.replicate 8192 0 ∧
    decodeAudioData (List.replicate 8192 0) 24000 1 =
      some ⟨List.replicate 4096 0, 24000, 1⟩ := by
  refine ⟨?_, ?_, ?_⟩
  · intro xs hmem
    rw [pcmBytesToSamples_encode]
    exact forall2_quantize_error xs hmem
  · have h := encode_replicate_zero 4096
    norm_num at h
    exact h
  · have h := decodeAudioData_replicate_zero 4096
    norm_num at h
    exact h

/-- Witness for C3 (amended): the one-element zero sequence. -/
theorem c3_roundtrip_within_1_16384_witness :
    (∀ x ∈ [(0 : ℚ)], -1 ≤ x ∧ x ≤ 1) ∧
    List.Forall₂ (fun d x => |d - x| ≤ 1 / 16384)
      (pcmBytesToSamples (encode [(0 : ℚ)])) [(0 : ℚ)] := by
  have hmem : ∀ x ∈ [(0 : ℚ)], -1 ≤ x ∧ x ≤ 1 := by
    intro x hx
    rw [List.mem_singleton] at hx
    subst hx
    norm_num
  exact ⟨hmem, c3_roundtrip_within_1_16384.1 [(0 : ℚ)] hmem⟩

/-- C10 counterexample: a model response whose text is the valid JSON
text "[]" parses successfully, so `generateQuestions` returns the parsed
empty array — not the fallback — and the caller receives no question. -/
theorem c10_empty_array_counterexample :
    questionsFromResponse "Space" "[]" = Json.arr [] ∧
    isNonEmptyQuestionList (questionsFromResponse "Space" "[]") = false := by
  exact ⟨rfl, rfl⟩

/-- C10 amended: `generateQuestions` never fails: when the candidate text
(the fenced block when present, else the whole response) cannot be parsed
as JSON, a single fallback question is returned — a one-element list; but
when the candidate parses, the parsed value is returned unchecked, so a
valid empty JSON array yields an empty question list. -/
theorem c10_fallback_only_on_parse_failure (topic text : String) :
    (parseJsonText (extractCandidate text) = none →
       questionsFromResponse topic text =
         Json.arr [fallbackQuestion topic] ∧
       isNonEmptyQuestionList (questionsFromResponse topic text) = true) ∧
    (∀ v, parseJsonText (extractCandidate text) = some v →
       questionsFromResponse topic text = v) := by
  constructor
  · intro h
    unfold questionsFromResponse
    rw [h]
    exact ⟨rfl, rfl⟩
  · intro v h
    unfold questionsFromResponse
    rw [h]

/-- Witness for C10 (amended): the unparseable response text "oops". -/
theorem c10_fallback_only_on_parse_failure_witness :
    parseJsonText (extractCandidate "oops") = none ∧
    questionsFromResponse "T" "oops" = Json.arr [fallbackQuestion "T"] := by
  have h : parseJsonText (extractCandidate "oops") = none := by rfl
  exact ⟨h, ((c10_fallback_only_on_parse_failure "T" "oops").1 h).1⟩

end TriviaGame
